import Mathlib

/-!
Verification development for the meeting-scheduler availability and booking
engine (Next.js server actions, `actions/events.js`, `actions/availability.js`,
`actions/bookings.js`).

All instants are modelled as natural numbers of minutes (absolute minutes from a
fixed origin placed at the start of the availability window's first day, so that
day `k` of the 31-day window spans minutes `[k*1440, (k+1)*1440)`). Time-of-day
values ("HH:MM" strings in the source) are minutes from midnight. Weekday names
("MONDAY", ...) are indices `0..6`.
-/

namespace Scheduler

/-- A stored booking interval as selected by `getEventAvailability`
(`bookings: { select: { startTime, endTime } }`). -/
structure Booking where
  startTime : Nat
  endTime : Nat
deriving DecidableEq, Repr

/-- The three-case overlap test from `genrateAvailableTimeSlots`
(`actions/events.js`): a candidate slot `[currentTime, slotEnd)` is compared
against a booking `b` with
`(currentTime >= b.startTime && currentTime < b.endTime) ||
 (slotEnd > b.startTime && slotEnd <= b.endTime) ||
 (currentTime <= b.startTime && slotEnd >= b.endTime)`. -/
def overlapsBooking (currentTime slotEnd : Nat) (b : Booking) : Bool :=
  decide ((currentTime ≥ b.startTime ∧ currentTime < b.endTime) ∨
    (slotEnd > b.startTime ∧ slotEnd ≤ b.endTime) ∨
    (currentTime ≤ b.startTime ∧ slotEnd ≥ b.endTime))

/-- Modelled from the spec (section 4.1): the standard half-open interval
overlap test `a.start < b.end AND b.start < a.end`, used to compare against the
three-case test of the source. -/
def overlaps (aStart aEnd : Nat) (b : Booking) : Bool :=
  decide (aStart < b.endTime ∧ b.startTime < aEnd)

/-- The while-loop of `genrateAvailableTimeSlots`, with explicit fuel (each
iteration advances `currentTime` by `eventDuration`, so
`slotEndTime - currentTime` iterations suffice when `eventDuration > 0`; the
JavaScript loop does not terminate when `eventDuration = 0`, a case ruled out
by `eventSchema`'s positive-integer check on `duration`):
`while (currentTime < slotEndTime) { slotEnd = currentTime + duration;
 if no booking overlaps, push currentTime; currentTime = slotEnd }`. -/
def slotLoop : Nat → Nat → Nat → Nat → List Booking → List Nat
  | 0, _, _, _, _ => []
  | fuel + 1, currentTime, slotEndTime, eventDuration, bookings =>
    if currentTime < slotEndTime then
      let slotEnd := currentTime + eventDuration
      let isSlotAvailable := ! bookings.any (fun b => overlapsBooking currentTime slotEnd b)
      (if isSlotAvailable then [currentTime] else []) ++
        slotLoop fuel slotEnd slotEndTime eventDuration bookings
    else []

/-- The slot generator `genrateAvailableTimeSlots(startTime, endTime,
eventDuration, dateStr, bookings, timeGap)` of `actions/events.js`. `startTime`
and `endTime` are the absolute instants of the day's window on the generated
date; `isToday` is the source's `format(now,"yyyy-MM-dd") === dateStr`; the
clamp is the source's
`currentTime = isBefore(currentTime, now) ? addMinutes(now, timeGap) : currentTime`.
The source pushes `format(currentTime, "HH:mm")`; we return the start instants
themselves. -/
def genrateAvailableTimeSlots (startTime endTime eventDuration : Nat)
    (isToday : Bool) (now timeGap : Nat) (bookings : List Booking) : List Nat :=
  let currentTime := if isToday && decide (startTime < now) then now + timeGap else startTime
  slotLoop (endTime - currentTime) currentTime endTime eventDuration bookings

/-- Claim C2: for nonempty intervals, the three-case overlap test used in slot
generation returns the same boolean as the half-open test
`a.start < b.end AND b.start < a.end`. -/
theorem overlapsBooking_eq_overlaps (aStart aEnd : Nat) (b : Booking)
    (ha : aStart < aEnd) (hb : b.startTime < b.endTime) :
    overlapsBooking aStart aEnd b = overlaps aStart aEnd b := by
  simp only [overlapsBooking, overlaps, decide_eq_decide]
  omega

/-- Witness for C2: the equivalence applied at the concrete intervals
`[1, 3)` and `[2, 5)`. -/
theorem overlapsBooking_eq_overlaps_witness :
    (1 : Nat) < 3 ∧ (2 : Nat) < 5 ∧
      overlapsBooking 1 3 ⟨2, 5⟩ = overlaps 1 3 ⟨2, 5⟩ :=
  ⟨by decide, by decide, overlapsBooking_eq_overlaps 1 3 ⟨2, 5⟩ (by decide) (by decide)⟩

/-- Every slot emitted by the while-loop is strictly below `slotEndTime`:
slots are only pushed under the loop guard `currentTime < slotEndTime`. -/
theorem slotLoop_mem_lt (fuel : Nat) :
    ∀ (currentTime slotEndTime eventDuration : Nat) (bookings : List Booking)
      (s : Nat), s ∈ slotLoop fuel currentTime slotEndTime eventDuration bookings →
      s < slotEndTime := by
  induction fuel with
  | zero =>
    intro ct et d bs s hs
    simp [slotLoop] at hs
  | succ n ih =>
    intro ct et d bs s hs
    simp only [slotLoop] at hs
    split at hs
    · rcases List.mem_append.mp hs with h1 | h2
      · split at h1
        · rcases List.mem_singleton.mp h1 with rfl
          assumption
        · simp at h1
      · exact ih (ct + d) et d bs s h2
    · simp at hs

/-- Every slot emitted by the while-loop is at least the initial cursor:
the cursor only advances. -/
theorem slotLoop_mem_ge (fuel : Nat) :
    ∀ (currentTime slotEndTime eventDuration : Nat) (bookings : List Booking)
      (s : Nat), s ∈ slotLoop fuel currentTime slotEndTime eventDuration bookings →
      currentTime ≤ s := by
  induction fuel with
  | zero =>
    intro ct et d bs s hs
    simp [slotLoop] at hs
  | succ n ih =>
    intro ct et d bs s hs
    simp only [slotLoop] at hs
    split at hs
    · rcases List.mem_append.mp hs with h1 | h2
      · split at h1
        · rcases List.mem_singleton.mp h1 with rfl
          exact Nat.le_refl s
        · simp at h1
      · exact Nat.le_trans (Nat.le_add_right ct d) (ih (ct + d) et d bs s h2)
    · simp at hs

/-- Every slot emitted by the while-loop passed the conflict filter: the
three-case overlap test is false against every supplied booking. -/
theorem slotLoop_mem_free (fuel : Nat) :
    ∀ (currentTime slotEndTime eventDuration : Nat) (bookings : List Booking)
      (s : Nat), s ∈ slotLoop fuel currentTime slotEndTime eventDuration bookings →
      ∀ b ∈ bookings, overlapsBooking s (s + eventDuration) b = false := by
  induction fuel with
  | zero =>
    intro ct et d bs s hs
    simp [slotLoop] at hs
  | succ n ih =>
    intro ct et d bs s hs
    simp only [slotLoop] at hs
    split at hs
    · rcases List.mem_append.mp hs with h1 | h2
      · rcases hav : bs.any (fun b => overlapsBooking ct (ct + d) b) with _ | _
        · rw [hav] at h1
          simp only [Bool.not_false, if_pos rfl] at h1
          rcases List.mem_singleton.mp h1 with rfl
          intro b hb
          exact Bool.eq_false_iff.mpr (List.any_eq_false.mp hav b hb)
        · rw [hav] at h1
          simp at h1
      · exact ih (ct + d) et d bs s h2
    · simp at hs

/-- Counterexample to claim C3 at a concrete input: window `[540, 600)`
(09:00 to 10:00), duration 45, no bookings, not the current date. The slot 585
(09:45) is emitted although `585 + 45 = 630 > 600`: the loop guard is
`currentTime < slotEndTime`, not `currentTime + duration ≤ slotEndTime`. -/
theorem slot_overruns_window_cex :
    genrateAvailableTimeSlots 540 600 45 false 0 0 [] = [540, 585] ∧
      600 < 585 + 45 := by decide

/-- Claim C3 (amended): every slot `s` emitted by the slot generator satisfies
`s < dayEnd` (the loop condition is `cursor < dayEnd`); the full duration may
overrun the window, so `s + durationMinutes ≤ dayEnd` need not hold. -/
theorem genrateAvailableTimeSlots_mem_lt (startTime endTime eventDuration : Nat)
    (isToday : Bool) (now timeGap : Nat) (bookings : List Booking) (s : Nat)
    (hs : s ∈ genrateAvailableTimeSlots startTime endTime eventDuration isToday
        now timeGap bookings) :
    s < endTime := by
  unfold genrateAvailableTimeSlots at hs
  exact slotLoop_mem_lt _ _ _ _ _ _ hs

/-- Witness for the amended C3: 540 is emitted for window `[540, 600)` and is
below 600. -/
theorem genrateAvailableTimeSlots_mem_lt_witness :
    (540 ∈ genrateAvailableTimeSlots 540 600 45 false 0 0 []) ∧ 540 < 600 :=
  ⟨by decide, genrateAvailableTimeSlots_mem_lt 540 600 45 false 0 0 [] 540 (by decide)⟩

/-- Counterexample to claim C4 at a concrete input: on the current date with
window start 850 (14:10), `now` 845 (14:05) and gap 15, the clamp
`isBefore(currentTime, now) ? now + gap : currentTime` leaves the cursor at 850
because `850 < 845` is false, and the slot 850 is offered although
`850 < 845 + 15 = 860`. -/
theorem slot_before_now_plus_gap_cex :
    (850 ∈ genrateAvailableTimeSlots 850 1020 30 true 845 15 []) ∧
      850 < 845 + 15 := by decide

/-- Claim C4 (amended): on the current date the cursor is replaced by
`now + gapMinutes` only when the window start is strictly before `now`; under
that hypothesis every emitted slot is at least `now + gapMinutes`. When the
window start lies in `[now, now + gapMinutes)` the cursor is left unchanged and
earlier slots can be offered. -/
theorem genrateAvailableTimeSlots_clamped (startTime endTime eventDuration : Nat)
    (now timeGap : Nat) (bookings : List Booking)
    (hclamp : startTime < now) (s : Nat)
    (hs : s ∈ genrateAvailableTimeSlots startTime endTime eventDuration true
        now timeGap bookings) :
    now + timeGap ≤ s := by
  unfold genrateAvailableTimeSlots at hs
  rw [if_pos (by simp [hclamp])] at hs
  exact slotLoop_mem_ge _ _ _ _ _ _ hs

/-- Witness for the amended C4: window start 540 (09:00) before `now` 845
(14:05) with gap 15 — the emitted slot 860 is at least `845 + 15`. -/
theorem genrateAvailableTimeSlots_clamped_witness :
    (540 : Nat) < 845 ∧ (860 ∈ genrateAvailableTimeSlots 540 1020 30 true 845 15 []) ∧
      845 + 15 ≤ 860 :=
  ⟨by decide, by decide,
    genrateAvailableTimeSlots_clamped 540 1020 30 845 15 [] (by decide) 860 (by decide)⟩

/-- Claim C7: every slot `s` emitted by the slot generator with event duration
`d` passed the conflict filter — the overlap test of `[s, s + d)` against every
supplied existing booking evaluates to false. -/
theorem genrateAvailableTimeSlots_no_overlap (startTime endTime eventDuration : Nat)
    (isToday : Bool) (now timeGap : Nat) (bookings : List Booking) (s : Nat)
    (hs : s ∈ genrateAvailableTimeSlots startTime endTime eventDuration isToday
        now timeGap bookings)
    (b : Booking) (hb : b ∈ bookings) :
    overlapsBooking s (s + eventDuration) b = false := by
  unfold genrateAvailableTimeSlots at hs
  exact slotLoop_mem_free _ _ _ _ _ _ hs b hb

/-- Witness for C7: with one booking `[600, 630)`, the emitted slot 540 tests
false for overlap. -/
theorem genrateAvailableTimeSlots_no_overlap_witness :
    (540 ∈ genrateAvailableTimeSlots 540 660 30 false 0 0 [⟨600, 630⟩]) ∧
      (⟨600, 630⟩ : Booking) ∈ [(⟨600, 630⟩ : Booking)] ∧
      overlapsBooking 540 (540 + 30) ⟨600, 630⟩ = false :=
  ⟨by decide, by decide,
    genrateAvailableTimeSlots_no_overlap 540 660 30 false 0 0 [⟨600, 630⟩] 540
      (by decide) ⟨600, 630⟩ (by decide)⟩

/-- A stored `DayAvailability` record as created by `updateUserAvailability`
(`actions/availability.js`): weekday name (an index `0..6`, `0` = SUNDAY) and a
window in minutes from midnight. The record has no `isAvailable` column. -/
structure DayRule where
  day : Nat
  startTime : Nat
  endTime : Nat
deriving DecidableEq, Repr

/-- A stored `Availability` record: its `DayAvailability` rows and the
`timeGap` in minutes. -/
structure Availability where
  days : List DayRule
  timeGap : Nat
deriving DecidableEq, Repr

/-- The data `getEventAvailability` reads for an event: the event's `duration`
and its owner's optional availability profile and booking list. -/
structure EventInfo where
  duration : Nat
  availability : Option Availability
  bookings : List Booking
deriving DecidableEq, Repr

/-- The body of the date loop of `getEventAvailability`: resolve the weekday
rule via `availability.days.find((d) => d.day === dayOfWeek)`; if present,
build the `{date, slots}` entry (the entry is pushed whether or not `slots` is
empty), otherwise produce nothing. Day `k` of the window spans absolute minutes
`[k*1440, (k+1)*1440)`; `k == 0` is the current calendar date. -/
def dayEntry (av : Availability) (duration : Nat) (bookings : List Booking)
    (todayWeekday now k : Nat) : Option (Nat × List Nat) :=
  match av.days.find? (fun d => d.day == (todayWeekday + k) % 7) with
  | none => none
  | some rule =>
    some (k, genrateAvailableTimeSlots (k * 1440 + rule.startTime)
      (k * 1440 + rule.endTime) duration (k == 0) now av.timeGap bookings)

/-- The window scheduler `getEventAvailability(eventId)` of `actions/events.js`.
The database lookup is modelled by the optional `EventInfo`; if the event or
its owner's availability profile is absent the result is `[]`. The date loop
`for (let date = startDtae; date <= endDate; date = addDays(date, 1))` with
`endDate = addDays(startDtae, 30)` visits the 31 day offsets `0..30`, modelled
by `List.range 31`. Dates are reported as day offsets from today. -/
def getEventAvailability (ev : Option EventInfo) (todayWeekday now : Nat) :
    List (Nat × List Nat) :=
  match ev with
  | none => []
  | some e =>
    match e.availability with
    | none => []
    | some av => (List.range 31).filterMap (dayEntry av e.duration e.bookings todayWeekday now)

/-- The dates kept by the scheduler are exactly the visited dates whose weekday
has a stored rule, in order. -/
theorem filterMap_dayEntry_map_fst (av : Availability) (duration : Nat)
    (bookings : List Booking) (todayWeekday now : Nat) (L : List Nat) :
    ((L.filterMap (dayEntry av duration bookings todayWeekday now)).map Prod.fst) =
      L.filter (fun k => (av.days.find? (fun d => d.day == (todayWeekday + k) % 7)).isSome) := by
  induction L with
  | nil => simp
  | cons a t ih =>
    rcases h : av.days.find? (fun d => d.day == (todayWeekday + a) % 7) with _ | rule
    · simp [List.filterMap_cons, List.filter_cons, dayEntry, h, ih]
    · simp [List.filterMap_cons, List.filter_cons, dayEntry, h, ih]

/-- Counterexample to claim C5 at a concrete input: with a rule for every
weekday, the dates appearing in the result are the 31 offsets `0..30` — the
loop bound is `date <= endDate` with `endDate = today + 30`, so the date
`today + 30`, outside the half-open range `[today, today + 30)`, appears. -/
theorem window_includes_day30_cex :
    ((getEventAvailability (some ⟨30, some ⟨[⟨0, 540, 600⟩, ⟨1, 540, 600⟩,
        ⟨2, 540, 600⟩, ⟨3, 540, 600⟩, ⟨4, 540, 600⟩, ⟨5, 540, 600⟩,
        ⟨6, 540, 600⟩], 0⟩, []⟩) 0 0).map Prod.fst) = List.range 31 := by decide

/-- Claim C5 (amended): the availability window computation considers exactly
the 31 dates in the closed range `[today, today + 30]` — the loop bound is
`date <= today + 30` — and the dates appearing in the result are precisely the
considered dates whose weekday has a stored rule; no date outside
`[today, today + 30]` ever appears. -/
theorem getEventAvailability_window (e : EventInfo) (av : Availability)
    (todayWeekday now : Nat) (h : e.availability = some av) :
    ((getEventAvailability (some e) todayWeekday now).map Prod.fst) =
      (List.range 31).filter
        (fun k => (av.days.find? (fun d => d.day == (todayWeekday + k) % 7)).isSome) := by
  simp only [getEventAvailability, h]
  exact filterMap_dayEntry_map_fst av e.duration e.bookings todayWeekday now (List.range 31)

/-- Witness for the amended C5: the characterization applied to a concrete
profile with a rule only for weekday 0. -/
theorem getEventAvailability_window_witness :
    ((getEventAvailability (some ⟨30, some ⟨[⟨0, 540, 600⟩], 5⟩, []⟩) 0 0).map Prod.fst) =
      (List.range 31).filter
        (fun k => (([⟨0, 540, 600⟩] : List DayRule).find? (fun d => d.day == (0 + k) % 7)).isSome) :=
  getEventAvailability_window ⟨30, some ⟨[⟨0, 540, 600⟩], 5⟩, []⟩ ⟨[⟨0, 540, 600⟩], 5⟩ 0 0 rfl

/-- Counterexample to claim C6 at a concrete input: weekday 0 has window
`[540, 600)` and the owner has a booking covering `[540, 600)` of day 0, so
every candidate on day 0 conflicts — yet the entry `(0, [])` with an empty slot
list is present in the result. -/
theorem empty_slot_entry_cex :
    ((0, ([] : List Nat)) ∈
      getEventAvailability (some ⟨60, some ⟨[⟨0, 540, 600⟩], 0⟩, [⟨540, 600⟩]⟩) 0 0) := by
  decide

/-- Claim C6 (amended): an entry is emitted for every in-window date whose
weekday has a stored rule — even when its slot list is empty — and only dates
whose weekday has no stored rule are omitted: `(k, slots)` is in the result iff
`k ≤ 30`, the weekday of `k` resolves to a rule, and `slots` is the generator's
output for that rule (possibly `[]`). -/
theorem getEventAvailability_mem_iff (e : EventInfo) (av : Availability)
    (todayWeekday now : Nat) (h : e.availability = some av) (k : Nat) (slots : List Nat) :
    ((k, slots) ∈ getEventAvailability (some e) todayWeekday now) ↔
      (k < 31 ∧ ∃ rule, av.days.find? (fun d => d.day == (todayWeekday + k) % 7) = some rule ∧
        slots = genrateAvailableTimeSlots (k * 1440 + rule.startTime)
          (k * 1440 + rule.endTime) e.duration (k == 0) now av.timeGap e.bookings) := by
  simp only [getEventAvailability, h]
  constructor
  · intro hmem
    obtain ⟨a, ha, hfa⟩ := List.mem_filterMap.mp hmem
    rcases hfind : av.days.find? (fun d => d.day == (todayWeekday + a) % 7) with _ | rule
    · simp [dayEntry, hfind] at hfa
    · simp only [dayEntry, hfind, Option.some.injEq, Prod.mk.injEq] at hfa
      obtain ⟨rfl, hslots⟩ := hfa
      exact ⟨List.mem_range.mp ha, rule, hfind, hslots.symm⟩
  · rintro ⟨hk, rule, hfind, hslots⟩
    refine List.mem_filterMap.mpr ⟨k, List.mem_range.mpr hk, ?_⟩
    simp [dayEntry, hfind, hslots]

/-- Witness for the amended C6: the membership characterization applied at day
offset 0 with an empty slot list for the concrete blocked-day profile. -/
theorem getEventAvailability_mem_iff_witness :
    (((0 : Nat), ([] : List Nat)) ∈
        getEventAvailability (some ⟨60, some ⟨[⟨0, 540, 601⟩], 0⟩, [⟨540, 661⟩]⟩) 0 0) ↔
      ((0 : Nat) < 31 ∧ ∃ rule, (([⟨0, 540, 601⟩] : List DayRule).find?
            (fun d => d.day == (0 + 0) % 7)) = some rule ∧
        ([] : List Nat) = genrateAvailableTimeSlots (0 * 1440 + rule.startTime)
          (0 * 1440 + rule.endTime) 60 (0 == 0) 0 0 [⟨540, 661⟩]) :=
  getEventAvailability_mem_iff ⟨60, some ⟨[⟨0, 540, 601⟩], 0⟩, [⟨540, 661⟩]⟩
    ⟨[⟨0, 540, 601⟩], 0⟩ 0 0 rfl 0 []

/-- Claim C9: if the requested event does not exist upstream, or the event's
owner has no availability profile, `getEventAvailability` returns the empty
list rather than raising an error. -/
theorem getEventAvailability_missing_empty (todayWeekday now : Nat) (e : EventInfo)
    (h : e.availability = none) :
    getEventAvailability none todayWeekday now = [] ∧
      getEventAvailability (some e) todayWeekday now = [] := by
  refine ⟨rfl, ?_⟩
  simp [getEventAvailability, h]

/-- Witness for C9: a concrete event whose owner has no availability profile
yields `[]`, as does a missing event. -/
theorem getEventAvailability_missing_empty_witness :
    getEventAvailability none 3 500 = [] ∧
      getEventAvailability (some ⟨30, none, [⟨540, 600⟩]⟩) 3 500 = [] :=
  getEventAvailability_missing_empty 3 500 ⟨30, none, [⟨540, 600⟩]⟩ rfl

/-- One weekday's entry of the availability form submitted to
`updateUserAvailability`: the `isAvailable` flag and the "HH:MM" times (as
minutes from midnight). -/
structure DaySetting where
  isAvailable : Bool
  startTime : Nat
  endTime : Nat
deriving DecidableEq, Repr

/-- The submitted availability form: the seven weekday entries (weekday index
paired with its setting) and the `timeGap`. In the source the form is one
object whose entries are iterated with `Object.entries(data)`; the `timeGap`
entry destructures to an undefined `isAvailable` and is dropped by the
`flatMap`, so only the weekday entries matter. -/
structure AvailabilityForm where
  days : List (Nat × DaySetting)
  timeGap : Nat
deriving DecidableEq, Repr

/-- The `availabilityData` computed by `updateUserAvailability`:
`Object.entries(data).flatMap(([day, {isAvailable, startTime, endTime}]) =>
 isAvailable ? {day: day.toUpperCase(), startTime, endTime} : [])` — only the
entries with `isAvailable = true` produce a stored `DayAvailability` row. -/
def availabilityDataOf (form : AvailabilityForm) : List DayRule :=
  form.days.filterMap
    (fun p => if p.2.isAvailable then some ⟨p.1, p.2.startTime, p.2.endTime⟩ else none)

/-- The store effect of `updateUserAvailability` (`actions/availability.js`):
whether the profile already exists (update with `days: {deleteMany: {},
create: availabilityData}`) or not (create), the resulting stored profile holds
`timeGap` and exactly the rows of `availabilityData` — a full replacement. -/
def updateUserAvailability (form : AvailabilityForm) : Availability :=
  { days := availabilityDataOf form, timeGap := form.timeGap }

/-- Counterexample to claim C8 at a concrete input: a well-formed submission in
which weekday 1 is unavailable and the other six weekdays are available. The
stored profile has 6 rows, not 7 — `updateUserAvailability` drops unavailable
days instead of storing rules with `isAvailable = false` (stored rows have no
such flag at all) — and the weekday lookup used by `getEventAvailability`
finds nothing for weekday 1. -/
theorem stored_profile_missing_weekday_cex :
    (updateUserAvailability ⟨[(0, ⟨true, 540, 1020⟩), (1, ⟨false, 540, 1020⟩),
        (2, ⟨true, 540, 1020⟩), (3, ⟨true, 540, 1020⟩), (4, ⟨true, 540, 1020⟩),
        (5, ⟨true, 540, 1020⟩), (6, ⟨true, 540, 1020⟩)], 0⟩).days.length = 6 ∧
      ((updateUserAvailability ⟨[(0, ⟨true, 540, 1020⟩), (1, ⟨false, 540, 1020⟩),
        (2, ⟨true, 540, 1020⟩), (3, ⟨true, 540, 1020⟩), (4, ⟨true, 540, 1020⟩),
        (5, ⟨true, 540, 1020⟩), (6, ⟨true, 540, 1020⟩)], 0⟩).days.find?
          (fun d => d.day == 1)) = none := by decide

/-- Claim C8 (amended): a stored availability profile contains one day rule per
*available* submitted weekday and none for unavailable ones: a rule `r` is
stored iff the submission contains the entry `(r.day, {isAvailable := true,
r.startTime, r.endTime})`. There is no stored rule (and no `NoRuleFound`
error) for an unavailable weekday — the scheduler's lookup simply finds
nothing and skips the date. -/
theorem updateUserAvailability_days_mem (form : AvailabilityForm) (r : DayRule) :
    (r ∈ (updateUserAvailability form).days) ↔
      ((r.day, (⟨true, r.startTime, r.endTime⟩ : DaySetting)) ∈ form.days) := by
  simp only [updateUserAvailability, availabilityDataOf, List.mem_filterMap]
  constructor
  · rintro ⟨⟨d, s⟩, hmem, hif⟩
    rcases hs : s.isAvailable with _ | _
    · simp [hs] at hif
    · simp only [hs, if_pos] at hif
      obtain rfl := Option.some.injEq _ _ ▸ hif
      cases s
      simp_all
  · intro hmem
    refine ⟨(r.day, ⟨true, r.startTime, r.endTime⟩), hmem, ?_⟩
    simp

/-- Witness for the amended C8: the characterization applied to a concrete form
and rule. -/
theorem updateUserAvailability_days_mem_witness :
    ((⟨2, 600, 960⟩ : DayRule) ∈
        (updateUserAvailability ⟨[(2, ⟨true, 600, 960⟩), (3, ⟨false, 540, 1020⟩)], 15⟩).days) ↔
      (((2 : Nat), (⟨true, 600, 960⟩ : DaySetting)) ∈
        [((2 : Nat), (⟨true, 600, 960⟩ : DaySetting)), (3, ⟨false, 540, 1020⟩)]) :=
  updateUserAvailability_days_mem ⟨[(2, ⟨true, 600, 960⟩), (3, ⟨false, 540, 1020⟩)], 15⟩
    ⟨2, 600, 960⟩

/-- The member access `d.days` performed by `getUserAvailability`'s lookup
`user.availability.days.find((d) => d.days === day.toUpperCase())`. A
`DayAvailability` record has no `days` field — the column written by
`updateUserAvailability` and read by `getEventAvailability` is `day` — so in
JavaScript the access yields `undefined` for every record. -/
def daysFieldOf (_d : DayRule) : Option Nat := none

/-- `getUserAvailability` of `actions/availability.js`: for each weekday (the
source iterates `["sunday", ..., "saturday"]`, here indices `0..6`) it looks up
a stored rule with `days.find((d) => d.days === day.toUpperCase())` and builds
`{isAvailable: !!dayAvailability, startTime: ... : "09:00", endTime: ... :
"17:00"}` (defaults 540 and 1020 minutes). Returns `none` when the user has no
availability profile, else the `timeGap` and the seven weekday views. -/
def getUserAvailability (av : Option Availability) : Option (Nat × List (Nat × DaySetting)) :=
  match av with
  | none => none
  | some a =>
    some (a.timeGap, (List.range 7).map (fun w =>
      match a.days.find? (fun d => daysFieldOf d == some w) with
      | some r => (w, ⟨true, r.startTime, r.endTime⟩)
      | none => (w, ⟨false, 540, 1020⟩)))

/-- Claim C10, code evaluated at the failing input: submit a form in which
every weekday is available 600..960 (10:00 to 16:00) with gap 10, then read it
back. The stored profile does contain the rule for weekday 0, but
`getUserAvailability` reports every weekday as unavailable with the default
times 540..1020 (09:00 to 17:00), because its lookup compares the nonexistent
field `d.days` (always `undefined`) instead of `d.day`. -/
theorem availability_round_trip_bug :
    ((updateUserAvailability ⟨[(0, ⟨true, 600, 960⟩), (1, ⟨true, 600, 960⟩),
        (2, ⟨true, 600, 960⟩), (3, ⟨true, 600, 960⟩), (4, ⟨true, 600, 960⟩),
        (5, ⟨true, 600, 960⟩), (6, ⟨true, 600, 960⟩)], 10⟩).days.find?
          (fun d => d.day == 0)) = some ⟨0, 600, 960⟩ ∧
      getUserAvailability (some (updateUserAvailability ⟨[(0, ⟨true, 600, 960⟩),
        (1, ⟨true, 600, 960⟩), (2, ⟨true, 600, 960⟩), (3, ⟨true, 600, 960⟩),
        (4, ⟨true, 600, 960⟩), (5, ⟨true, 600, 960⟩),
        (6, ⟨true, 600, 960⟩)], 10⟩)) =
        some (10, (List.range 7).map (fun w => (w, ⟨false, 540, 1020⟩))) := by decide

/-- An `Event` row as read by `createBooking`: its id and its owner
(`event.userId`). -/
structure EventRow where
  id : Nat
  userId : Nat
deriving DecidableEq, Repr

/-- The booking request sent by the booking form: the event id and the chosen
`[startTime, endTime)` interval. -/
structure BookingData where
  eventId : Nat
  startTime : Nat
  endTime : Nat
deriving DecidableEq, Repr

/-- A persisted `Booking` row as created by `createBooking`: event, owner
(`userId: event.userId`) and interval. -/
structure PersistedBooking where
  eventId : Nat
  userId : Nat
  startTime : Nat
  endTime : Nat
deriving DecidableEq, Repr

/-- `createBooking` of `actions/bookings.js`, per the repository's booking
walkthrough: fetch the event (fail if absent), create the calendar event
(an external side effect, not modelled), then persist the booking with
`db.booking.create({data: {eventId, userId: event.userId, startTime, endTime,
...}})` and return success. No check of the requested interval against the
owner's existing bookings is performed before persisting. `none` models the
thrown error when the event does not exist; `some` returns the store after the
insert. -/
def createBooking (events : List EventRow) (store : List PersistedBooking)
    (bd : BookingData) : Option (List PersistedBooking) :=
  match events.find? (fun e => e.id == bd.eventId) with
  | none => none
  | some ev => some (store ++ [⟨ev.id, ev.userId, bd.startTime, bd.endTime⟩])

/-- Claim C1, code evaluated at the failing input: with event 1 owned by user 0
and a persisted booking `[600, 660)` for that owner already in the store,
admitting a second booking for the same event over the identical interval
succeeds and persists it — `createBooking` has no `SlotConflict` check — so the
store ends with two overlapping bookings of the same owner (the intervals
overlap under the half-open test). -/
theorem createBooking_persists_overlap :
    createBooking [⟨1, 0⟩] [⟨1, 0, 600, 660⟩] ⟨1, 600, 660⟩ =
        some [⟨1, 0, 600, 660⟩, ⟨1, 0, 600, 660⟩] ∧
      overlaps 600 660 ⟨600, 660⟩ = true := by decide

end Scheduler
